import Mathlib

/-!
Verification development for the BULK_HUB_X_PARSER repository (src/parser.js).

The embedding models the JavaScript source shallowly:
- JS strings that may be null/undefined become Option String; JS string
  truthiness (only the empty string is falsy among strings) is optTruthy.
- Timestamps: new Date(s).getTime() is abstracted by a parameter
  dateParse : String -> Option Int (none = NaN); a parsed date is carried
  as its millisecond instant, since toISOString round-trips through Date.
- Database tables become lists of row structures; each SQL upsert becomes
  a pure function on the table, mirroring the ON CONFLICT clause.
- Drivers become recursive functions over an explicit environment (the
  list of API responses, and a function telling which upserts fail); they
  return the list of observable events (fetches, upserts, cursor writes)
  together with an Except value (a thrown Error unwinds the run).
-/

namespace BulkHub

/-- Truthiness of a JS string-or-nullish value: null and undefined are falsy,
and among strings exactly the empty string is falsy. -/
def optTruthy : Option String → Bool
  | none => false
  | some s => s ≠ ""

/-- Evaluation of the JS expression a || b over string-or-nullish values. -/
def jsOrElse (a b : Option String) : Option String :=
  if optTruthy a then a else b

/-- Evaluation of JS String(x) on a string-or-nullish value: String(null)
is the literal string "null". -/
def jsString : Option String → String
  | some s => s
  | none => "null"

/-- Raw author sub-object of an API tweet payload (t.author). -/
structure RawAuthor where
  id : Option String
  userName : Option String
  username : Option String
deriving DecidableEq, Repr

/-- Raw tweet payload as returned by the API, restricted to the fields
parser.js reads. The id is modelled as an always-present string, matching
the unconditional String(t.id) coercion in the source. -/
structure RawTweet where
  id : String
  url : Option String
  text : Option String
  createdAt : Option String
  author : Option RawAuthor
deriving DecidableEq, Repr

/-- Canonical normalized tweet record, the return shape of normalizeTweet. -/
structure NormTweet where
  tweet_id : String
  url : Option String
  text : String
  created_at : Option Int
  author_user_id : Option String
  author_username : Option String
deriving DecidableEq, Repr

/-- Model of parseCreatedAt: if (!s) return null; parse the date, null on
NaN. The JS Date parser is abstracted by dateParse (none = NaN); the
ISO-string result is represented by the parsed instant itself, which is
faithful because toISOString round-trips through new Date. -/
def parseCreatedAt (dateParse : String → Option Int) : Option String → Option Int
  | none => none
  | some s => if s = "" then none else dateParse s

/-- Model of normalizeTweet from parser.js. -/
def normalizeTweet (dateParse : String → Option Int) (t : RawTweet) : NormTweet :=
  { tweet_id := t.id
    url := if optTruthy t.url then t.url else none
    text := match t.text with
      | some s => if s = "" then "" else s
      | none => ""
    created_at := parseCreatedAt dateParse t.createdAt
    author_user_id := match t.author with
      | some a => if optTruthy a.id then a.id else none
      | none => none
    author_username := match t.author with
      | some a => jsOrElse (jsOrElse a.userName a.username) none
      | none => none }

/-! ## Posts table and its coalescing upsert -/

/-- Stored row of the community_tweets table (the columns parser.js writes). -/
structure TweetRow where
  community_id : String
  tweet_id : String
  created_at : Option Int
  author_user_id : Option String
  author_username : Option String
  url : Option String
  text : Option String
deriving DecidableEq, Repr

/-- SQL COALESCE of two nullable values. -/
def sqlCoalesce {α : Type} : Option α → Option α → Option α
  | some v, _ => some v
  | none, b => b

/-- Row produced by the INSERT arm of the community_tweets upsert. -/
def insertRowOfTweet (communityId : String) (tw : NormTweet) : TweetRow :=
  { community_id := communityId
    tweet_id := tw.tweet_id
    created_at := tw.created_at
    author_user_id := tw.author_user_id
    author_username := tw.author_username
    url := tw.url
    text := some tw.text }

/-- DO UPDATE arm of the community_tweets upsert: every data column is
written as COALESCE(EXCLUDED.col, community_tweets.col). -/
def conflictUpdate (old : TweetRow) (tw : NormTweet) : TweetRow :=
  { old with
    created_at := sqlCoalesce tw.created_at old.created_at
    author_user_id := sqlCoalesce tw.author_user_id old.author_user_id
    author_username := sqlCoalesce tw.author_username old.author_username
    url := sqlCoalesce tw.url old.url
    text := sqlCoalesce (some tw.text) old.text }

/-- Key predicate of the ON CONFLICT (community_id, tweet_id) target. -/
def tweetKeyMatch (communityId tweetId : String) (r : TweetRow) : Bool :=
  r.community_id == communityId && r.tweet_id == tweetId

/-- Model of upsertCommunityTweet: insert a fresh row, or on key conflict
apply the coalescing update to the existing row. -/
def upsertCommunityTweet (db : List TweetRow) (communityId : String) (tw : NormTweet) :
    List TweetRow :=
  if db.any (tweetKeyMatch communityId tw.tweet_id) then
    db.map (fun r => if tweetKeyMatch communityId tw.tweet_id r then conflictUpdate r tw else r)
  else
    db ++ [insertRowOfTweet communityId tw]

/-- Point lookup by the (community_id, tweet_id) key. -/
def lookupTweet (db : List TweetRow) (communityId tweetId : String) : Option TweetRow :=
  db.find? (tweetKeyMatch communityId tweetId)

/-! ## Users table and its upsert -/

/-- Raw user payload as read by upsertUser. -/
structure RawUser where
  id : Option String
  userName : Option String
  name : Option String
  followers : Option Int
  following : Option Int
  profilePicture : Option String
deriving DecidableEq, Repr

/-- Stored row of the users table (the columns parser.js writes). -/
structure UserRow where
  user_id : String
  username : String
  name : Option String
  followers : Int
  following : Int
  profile_picture : Option String
deriving DecidableEq, Repr

/-- Row written by upsertUser once the required fields are present; the
DO UPDATE arm overwrites every column, so insert and update write the
same row. -/
def userRowOf (uid uname : String) (u : RawUser) : UserRow :=
  { user_id := uid
    username := uname
    name := u.name
    followers := u.followers.getD 0
    following := u.following.getD 0
    profile_picture := u.profilePicture }

/-- Model of upsertUser: compute user_id and username with JS truthiness,
silently return the store unchanged when either is missing, otherwise
upsert keyed by user_id with full overwrite. -/
def upsertUser (db : List UserRow) (u : RawUser) : List UserRow :=
  let user_id := if optTruthy u.id then u.id else none
  let username := jsOrElse u.userName none
  match user_id, username with
  | some uid, some uname =>
    let row := userRowOf uid uname u
    if db.any (fun r => r.user_id == uid) then
      db.map (fun r => if r.user_id == uid then row else r)
    else
      db ++ [row]
  | some _, none => db
  | none, _ => db

/-! ## Paced API client (class TwitterApiIO) -/

/-- HTTP response as consumed by TwitterApiIO.get: numeric status plus the
body fields the code inspects after JSON parsing. -/
structure HttpResp where
  status : Nat
  message : Option String
  msg : Option String
  bodyStatus : Option String
deriving DecidableEq, Repr

/-- Observable actions of one call to TwitterApiIO.get: applications of the
pacing gate, outbound request attempts, and backoff sleeps. -/
inductive NetEv where
  | pace
  | request (attempt : Nat)
  | sleepMs (ms : Int)
deriving DecidableEq, Repr

/-- Result of one call to TwitterApiIO.get. Every failure in the source is
thrown as a plain new Error(message); there is a single error shape,
distinguished only by its message string. The noResponse case marks
exhaustion of the modelled response stream, not a program behaviour. -/
inductive GetResult where
  | ok (data : HttpResp)
  | err (msg : String)
  | noResponse
deriving DecidableEq, Repr

/-- Message thrown on a non-ok response:
data?.message || data?.msg || (HTTP status). -/
def httpErrMsg (r : HttpResp) : String :=
  match jsOrElse r.message (jsOrElse r.msg none) with
  | some m => m
  | none => "HTTP " ++ toString r.status

/-- Message thrown on a success response whose body status field is present
and different from "success": data?.msg || "API status error". -/
def apiErrMsg (r : HttpResp) : String :=
  match jsOrElse r.msg none with
  | some m => m
  | none => "API status error"

/-- JS res.ok: status in the 2xx range. -/
def resOk (status : Nat) : Bool :=
  200 ≤ status && status ≤ 299

/-- Truthiness of the body status field combined with the inequality test
of the application-error branch: data?.status && data.status !== "success". -/
def apiStatusBad (r : HttpResp) : Bool :=
  match r.bodyStatus with
  | some s => s ≠ "" && s ≠ "success"
  | none => false

/-- Model of the while(true) retry loop inside TwitterApiIO.get. The
environment supplies the successive HTTP responses; attempt0 is the value
of the attempt counter before the next increment. On a 429 within the
retry budget the loop sleeps minIntervalMs + attempt * 1000 ms, re-applies
the pacing gate, and retries; otherwise it resolves the response exactly
as the source does. -/
def getLoop (minIntervalMs : Int) (retries : Nat) (path : String) :
    List HttpResp → Nat → List NetEv × GetResult
  | [], _ => ([], GetResult.noResponse)
  | r :: rest, attempt0 =>
    let attempt := attempt0 + 1
    if r.status = 429 && attempt ≤ retries then
      let waitMs := minIntervalMs + (attempt : Int) * 1000
      let other := getLoop minIntervalMs retries path rest attempt
      (NetEv.request attempt :: NetEv.sleepMs waitMs :: NetEv.pace :: other.1, other.2)
    else if !resOk r.status then
      ([NetEv.request attempt], GetResult.err (httpErrMsg r ++ " @ " ++ path))
    else if apiStatusBad r then
      ([NetEv.request attempt], GetResult.err (apiErrMsg r ++ " @ " ++ path))
    else
      ([NetEv.request attempt], GetResult.ok r)

/-- Model of TwitterApiIO.get: one pacing gate application, then the retry
loop with the attempt counter starting at zero. -/
def apiGet (minIntervalMs : Int) (retries : Nat) (path : String)
    (responses : List HttpResp) : List NetEv × GetResult :=
  let r := getLoop minIntervalMs retries path responses 0
  (NetEv.pace :: r.1, r.2)

/-! ## Timed model of the pacing gate (TwitterApiIO.pace)

Wall-clock time is an explicit Int (milliseconds). One call of the gate
reads now = Date.now(), computes wait = lastTs + minIntervalMs - now,
sleeps wait ms when positive, and re-reads Date.now() into lastTs. The
second clock read is the first one plus the sleep (when any) plus a
nonnegative drift, matching the guarantee that setTimeout never fires
early and that clocks are monotone. -/

/-- New value of the lastTs field after one application of the pacing gate,
given the clock reading now at entry and the nonnegative extra time drift
elapsed by the second clock reading. -/
def paceStep (minIntervalMs lastTs now drift : Int) : Int :=
  let wait := lastTs + minIntervalMs - now
  if wait > 0 then now + wait + drift else now + drift

/-- Environment of one client call: the endpoint requested, the clock
reading when the pacing gate is entered, and the drift of the second
clock reading. -/
structure CallEnv where
  endpoint : String
  now : Int
  drift : Int
deriving DecidableEq, Repr

/-- Request start times (the successive lastTs values, each recorded
immediately before the outbound request is issued) of a sequence of calls
through one shared client instance. -/
def clientRunTimes (minIntervalMs : Int) (lastTs : Int) : List CallEnv → List Int
  | [] => []
  | c :: rest =>
    let t := paceStep minIntervalMs lastTs c.now c.drift
    t :: clientRunTimes minIntervalMs t rest

/-! ## Drivers

Each driver is modelled as a recursive function over an explicit
environment: the list of successive API responses (fetching consumes the
head; an exhausted list behaves as a final empty page) and a function
uf : NormTweet -> Option String telling which tweet upserts throw a
storage error (none = success). A driver returns the list of observable
events it performed, and Except String Unit: error e means the run was
unwound by a thrown exception. -/

/-- Page response of /twitter/community/tweets as read by the drivers. -/
structure Page where
  tweets : List RawTweet
  has_next_page : Bool
  next_cursor : Option String
deriving DecidableEq, Repr

/-- Response modelling an exhausted environment: no tweets, no next page. -/
def emptyPage : Page :=
  { tweets := [], has_next_page := false, next_cursor := none }

/-- Observable events of the backfill and ingest-new drivers: a page fetch
(recording the cursor sent and the page received), one tweet upsert, one
backfill-cursor write, one watermark write. -/
inductive Ev where
  | fetch (cursor : Option String) (page : Page)
  | upsert (tw : NormTweet)
  | setCursor (c : Option String)
  | setLastSeen (id : String)
deriving DecidableEq, Repr

/-- Cutoff configuration of the backfill driver: with a positive cutoff-days
setting the threshold instant is now minus that many days, else null. -/
def cutoffTsOf (backfillCutoffDays now : Int) : Option Int :=
  if backfillCutoffDays > 0 then some (now - backfillCutoffDays * 24 * 3600 * 1000) else none

/-- Cutoff test of one normalized tweet, mirroring
if (cutoffTs && tw.created_at) with numeric truthiness of cutoffTs
(zero is falsy) and the ts < cutoffTs comparison. Re-parsing the stored
ISO string never yields NaN, so the isNaN guard of the source is vacuous
here. A null created_at makes the whole test false. -/
def cutoffHit (cutoffTs created_at : Option Int) : Bool :=
  match cutoffTs, created_at with
  | some c, some ts => c ≠ 0 && ts < c
  | _, _ => false

/-- Outcome of consuming the tweets of one backfill page. -/
inductive PageOutcome where
  | completed
  | cutoff
  | failed (e : String)
deriving DecidableEq, Repr

/-- Inner item loop of one backfill page: normalize each tweet, break out
on the cutoff test, upsert it otherwise (aborting the run if the upsert
throws). -/
def processTweets (dateParse : String → Option Int) (uf : NormTweet → Option String)
    (cutoffTs : Option Int) : List RawTweet → List Ev × PageOutcome
  | [] => ([], PageOutcome.completed)
  | t :: rest =>
    let tw := normalizeTweet dateParse t
    if cutoffHit cutoffTs tw.created_at then
      ([], PageOutcome.cutoff)
    else
      match uf tw with
      | some e => ([], PageOutcome.failed e)
      | none =>
        let r := processTweets dateParse uf cutoffTs rest
        (Ev.upsert tw :: r.1, r.2)

/-- Page loop of the backfill driver; the Nat argument is the remaining
page budget of this run (BACKFILL_PAGES_PER_RUN at the start). On cutoff
or a missing next page it persists a null cursor and stops; otherwise it
persists the next cursor and continues. -/
def backfillLoop (dateParse : String → Option Int) (uf : NormTweet → Option String)
    (cutoffTs : Option Int) : Nat → List Page → Option String → List Ev × Except String Unit
  | 0, _, _ => ([], Except.ok ())
  | fuel + 1, pages, cursor =>
    let data := pages.headD emptyPage
    let pr := processTweets dateParse uf cutoffTs data.tweets
    let evs := Ev.fetch cursor data :: pr.1
    match pr.2 with
    | PageOutcome.failed e => (evs, Except.error e)
    | PageOutcome.cutoff => (evs ++ [Ev.setCursor none], Except.ok ())
    | PageOutcome.completed =>
      if !data.has_next_page || !optTruthy data.next_cursor then
        (evs ++ [Ev.setCursor none], Except.ok ())
      else
        let r := backfillLoop dateParse uf cutoffTs fuel pages.tail data.next_cursor
        (evs ++ Ev.setCursor data.next_cursor :: r.1, r.2)

/-- Model of the backfill command: read the stored cursor (empty-string
collapses to null via ||), compute the cutoff instant, run the page loop. -/
def backfill (dateParse : String → Option Int) (uf : NormTweet → Option String)
    (backfillCutoffDays now : Int) (pagesPerRun : Nat) (storedCursor : Option String)
    (pages : List Page) : List Ev × Except String Unit :=
  let cursor := jsOrElse storedCursor none
  backfillLoop dateParse uf (cutoffTsOf backfillCutoffDays now) pagesPerRun pages cursor

/-! ## Cursor-discipline checker for the backfill trace -/

/-- First-occurrence removal on normalized tweets, used by the checker to
tick off pending items as their upserts appear. -/
def eraseFirst : List NormTweet → NormTweet → List NormTweet
  | [], _ => []
  | x :: rest, tw => if x = tw then rest else x :: eraseFirst rest tw

/-- State of the cursor-discipline checker: the normalized items of the
most recently fetched page that have not been upserted yet, the next
cursor announced by that page, and whether all checks passed so far. -/
structure CheckSt where
  pending : List NormTweet
  expectedNext : Option String
  ok : Bool
deriving DecidableEq, Repr

/-- One checker transition: a fetch loads the pending items and expected
next cursor of the page; an upsert removes one pending item; persisting a
non-null cursor demands that the fetched page is fully upserted and that
the cursor written is exactly the one the page announced. Persisting a
null cursor is a terminal marker, not an advancement, and is always
allowed. -/
def checkStep (dateParse : String → Option Int) : CheckSt → Ev → CheckSt
  | st, Ev.fetch _ p =>
    { st with pending := p.tweets.map (normalizeTweet dateParse), expectedNext := p.next_cursor }
  | st, Ev.upsert tw => { st with pending := eraseFirst st.pending tw }
  | st, Ev.setCursor none => st
  | st, Ev.setCursor (some c) =>
    { st with ok := st.ok && st.pending.isEmpty && (st.expectedNext == some c) }
  | st, Ev.setLastSeen _ => st

/-- Cursor discipline of a trace: at every write of a non-null backfill
cursor, the page fetched last has all its normalized items already
upserted and the written cursor is the one that page announced. -/
def cursorDiscipline (dateParse : String → Option Int) (trace : List Ev) : Bool :=
  (trace.foldl (checkStep dateParse) ⟨[], none, true⟩).ok

/-! ## Incremental driver (ingest-new) -/

/-- Outcome of scanning the tweets of one ingest-new page. -/
inductive ScanOutcome where
  | completed
  | stopped
  | failed (e : String)
deriving DecidableEq, Repr

/-- Stop test of one raw tweet against the previous watermark:
if (stopId && id === stopId). -/
def stopMatch (stopId : Option String) (t : RawTweet) : Bool :=
  match stopId with
  | some s => s ≠ "" && t.id == s
  | none => false

/-- Inner item loop of one ingest-new page: stop at the watermark match
without upserting it, upsert every earlier item (aborting the run if an
upsert throws). -/
def scanTweets (dateParse : String → Option Int) (uf : NormTweet → Option String)
    (stopId : Option String) : List RawTweet → List Ev × ScanOutcome
  | [] => ([], ScanOutcome.completed)
  | t :: rest =>
    if stopMatch stopId t then
      ([], ScanOutcome.stopped)
    else
      let tw := normalizeTweet dateParse t
      match uf tw with
      | some e => ([], ScanOutcome.failed e)
      | none =>
        let r := scanTweets dateParse uf stopId rest
        (Ev.upsert tw :: r.1, r.2)

/-- Candidate-watermark update done at the top of one ingest-new page:
only on the first page, and only when the first item exists and its id is
truthy, the candidate becomes that id. -/
def pageCandidate (first : Bool) (p : Page) (nls : Option String) : Option String :=
  if first then
    match p.tweets with
    | t :: _ => if t.id ≠ "" then some t.id else nls
    | [] => nls
  else nls

/-- Page loop of the ingest-new driver; the Nat argument is the remaining
page budget (TOP_PAGES at the start). Returns the events, the candidate
watermark after the loop, and whether the run unwound. -/
def ingestLoop (dateParse : String → Option Int) (uf : NormTweet → Option String)
    (stopId : Option String) :
    Nat → List Page → Option String → Bool → Option String →
    List Ev × Option String × Except String Unit
  | 0, _, _, _, nls => ([], nls, Except.ok ())
  | fuel + 1, pages, cursor, first, nls =>
    let data := pages.headD emptyPage
    let nls2 := pageCandidate first data nls
    let sr := scanTweets dateParse uf stopId data.tweets
    let evs := Ev.fetch cursor data :: sr.1
    match sr.2 with
    | ScanOutcome.failed e => (evs, nls2, Except.error e)
    | ScanOutcome.stopped => (evs, nls2, Except.ok ())
    | ScanOutcome.completed =>
      if !data.has_next_page || !optTruthy data.next_cursor then
        (evs, nls2, Except.ok ())
      else
        let r := ingestLoop dateParse uf stopId fuel pages.tail data.next_cursor false nls2
        (evs ++ r.1, r.2)

/-- Model of the ingest-new command: read the previous watermark
(empty-string collapses to null via ||), run the page loop from no
cursor, and afterwards persist the candidate watermark when one was
captured; a thrown error skips that final persist. -/
def ingestNew (dateParse : String → Option Int) (uf : NormTweet → Option String)
    (topPages : Nat) (lastSeen : Option String) (pages : List Page) :
    List Ev × Except String Unit :=
  let stopId := jsOrElse lastSeen none
  let r := ingestLoop dateParse uf stopId topPages pages none true none
  match r.2.2 with
  | Except.error e => (r.1, Except.error e)
  | Except.ok () =>
    (r.1 ++ (match r.2.1 with
      | some w => [Ev.setLastSeen w]
      | none => []), Except.ok ())

/-- Candidate watermark of a whole ingest-new run, as determined by the
first fetched page (none when the page budget is zero). -/
def ingestCandidate (topPages : Nat) (pages : List Page) : Option String :=
  match topPages with
  | 0 => none
  | _ + 1 => pageCandidate true (pages.headD emptyPage) none

/-- Recognizer of watermark-write events. -/
def isSetLastSeen : Ev → Bool
  | Ev.setLastSeen _ => true
  | _ => false

/-! ## Users refresh driver (refresh-users) -/

/-- Response of /twitter/user/info as inspected by refreshUsers: the user
payload may sit under the user, data, or result field. -/
structure UserResp where
  user : Option RawUser
  data : Option RawUser
  result : Option RawUser
deriving DecidableEq, Repr

/-- Observable events of the users refresh driver. -/
inductive UEv where
  | fetchUser (username : String)
  | upsertU (u : RawUser)
  | okLog (username : String)
  | warn (username : String) (e : String)
deriving DecidableEq, Repr

/-- Payload chosen by the data?.user / data?.data / data?.result cascade
(object truthiness: any present object is truthy). -/
def chooseUserPayload (d : UserResp) : Option RawUser :=
  if d.user.isSome then d.user
  else if d.data.isSome then d.data
  else if d.result.isSome then d.result
  else none

/-- Body of one iteration of the refresh-users loop, including its
try/catch: a thrown fetch or upsert error is caught and logged as a
warning, so the body never unwinds the run. The environments give the
fetch outcome per handle and the upsert outcome per payload. -/
def refreshOne (fenv : String → Except String UserResp) (uuf : RawUser → Option String)
    (username : String) : List UEv :=
  match fenv username with
  | Except.error e => [UEv.fetchUser username, UEv.warn username e]
  | Except.ok d =>
    match chooseUserPayload d with
    | some u =>
      match uuf u with
      | some e => [UEv.fetchUser username, UEv.warn username e]
      | none => [UEv.fetchUser username, UEv.upsertU u, UEv.okLog username]
    | none => [UEv.fetchUser username, UEv.okLog username]

/-- Model of the refresh-users command loop over the selected handles; the
per-handle bodies run in sequence because each body catches its own
failures. -/
def refreshUsers (fenv : String → Except String UserResp) (uuf : RawUser → Option String)
    (usernames : List String) : List UEv :=
  usernames.flatMap (refreshOne fenv uuf)

/-- Recognizer of per-handle fetch events. -/
def isFetchUser : UEv → Bool
  | UEv.fetchUser _ => true
  | _ => false

/-! ## Metrics refresh driver (refresh-metrics) -/

/-- Raw metric payload of one tweet as read by upsertMetrics. -/
structure MetricRaw where
  id : String
  viewCount : Option Int
  likeCount : Option Int
  retweetCount : Option Int
  replyCount : Option Int
  quoteCount : Option Int
  bookmarkCount : Option Int
deriving DecidableEq, Repr

/-- Observable events of the metrics refresh driver. -/
inductive MEv where
  | fetchBatch (ids : List String)
  | upsertM (m : MetricRaw)
deriving DecidableEq, Repr

/-- Model of the chunk helper: successive slices of the given size. The
recursion is bounded by the list length; a zero size, on which the JS
helper would never terminate, yields the empty list instead. -/
def chunkGo (size : Nat) : Nat → List String → List (List String)
  | 0, _ => []
  | _, [] => []
  | fuel + 1, l => l.take size :: chunkGo size fuel (l.drop size)

/-- Model of chunk(arr, size) from parser.js. -/
def chunk (size : Nat) (l : List String) : List (List String) :=
  if size = 0 then [] else chunkGo size l.length l

/-- Metric upserts of one fetched batch: each is attempted in order and a
thrown storage error aborts immediately. -/
def upsertAllMetrics (mf : MetricRaw → Option String) :
    List MetricRaw → List MEv × Option String
  | [] => ([], none)
  | m :: rest =>
    match mf m with
    | some e => ([], some e)
    | none =>
      let r := upsertAllMetrics mf rest
      (MEv.upsertM m :: r.1, r.2)

/-- Batch loop of the metrics refresh driver: fetch each group, upsert
every returned metric record; an upsert failure unwinds the run. -/
def refreshMetricsLoop (bfetch : List String → List MetricRaw)
    (mf : MetricRaw → Option String) : List (List String) → List MEv × Except String Unit
  | [] => ([], Except.ok ())
  | g :: groups =>
    let tweets := bfetch g
    let ur := upsertAllMetrics mf tweets
    match ur.2 with
    | some e => (MEv.fetchBatch g :: ur.1, Except.error e)
    | none =>
      let r := refreshMetricsLoop bfetch mf groups
      (MEv.fetchBatch g :: ur.1 ++ r.1, r.2)

/-- Model of the refresh-metrics command: the selected stale tweet ids are
an input (the SQL selection is outside this model); an empty selection
returns early, otherwise the ids are chunked and the batch loop runs. -/
def refreshMetrics (bfetch : List String → List MetricRaw) (mf : MetricRaw → Option String)
    (batchSize : Nat) (ids : List String) : List MEv × Except String Unit :=
  if ids.length = 0 then ([], Except.ok ())
  else refreshMetricsLoop bfetch mf (chunk batchSize ids)

/-! ## Members sync driver (sync-members) -/

/-- Page response of /twitter/community/members as read by syncMembers. -/
structure MemberPage where
  members : List RawUser
  has_next_page : Bool
  next_cursor : Option String
deriving DecidableEq, Repr

/-- Response modelling an exhausted member-page environment. -/
def emptyMemberPage : MemberPage :=
  { members := [], has_next_page := false, next_cursor := none }

/-- Observable events of the members sync driver. -/
inductive SEv where
  | fetchMembers (cursor : Option String)
  | upsertUserEv (u : RawUser)
  | upsertMember (user_id : String) (username : Option String)
deriving DecidableEq, Repr

/-- Member upserts of one fetched page: per member, the users upsert then
the community_members upsert, each of which may throw and abort. The
member row stores String(m.id) (String(null) is the string "null") and
the raw userName. -/
def processMembers (uuf : RawUser → Option String) (muf : RawUser → Option String) :
    List RawUser → List SEv × Option String
  | [] => ([], none)
  | m :: rest =>
    match uuf m with
    | some e => ([], some e)
    | none =>
      match muf m with
      | some e => ([SEv.upsertUserEv m], some e)
      | none =>
        let r := processMembers uuf muf rest
        (SEv.upsertUserEv m :: SEv.upsertMember (jsString m.id) m.userName :: r.1, r.2)

/-- Model of the while(true) page loop of sync-members; the recursion
consumes the response stream, and the loop breaks when a page announces
no successor. An upsert failure unwinds the run. -/
def syncMembersLoop (uuf : RawUser → Option String) (muf : RawUser → Option String) :
    List MemberPage → Option String → List SEv × Except String Unit
  | pages, cursor =>
    let data := pages.headD emptyMemberPage
    let pr := processMembers uuf muf data.members
    let evs := SEv.fetchMembers cursor :: pr.1
    match pr.2 with
    | some e => (evs, Except.error e)
    | none =>
      if !data.has_next_page || !optTruthy data.next_cursor then
        (evs, Except.ok ())
      else
        match pages with
        | [] => (evs, Except.ok ())
        | _ :: rest =>
          let r := syncMembersLoop uuf muf rest data.next_cursor
          (evs ++ r.1, r.2)

/-! ## Helper lemmas -/

lemma conflictUpdate_community_id (old : TweetRow) (tw : NormTweet) :
    (conflictUpdate old tw).community_id = old.community_id := rfl

lemma conflictUpdate_tweet_id (old : TweetRow) (tw : NormTweet) :
    (conflictUpdate old tw).tweet_id = old.tweet_id := rfl

lemma tweetKeyMatch_conflictUpdate (cid tid : String) (r : TweetRow) (tw : NormTweet) :
    tweetKeyMatch cid tid (conflictUpdate r tw) = tweetKeyMatch cid tid r := rfl

lemma find?_map_conflict (cid tid : String) (tw : NormTweet) :
    ∀ (db : List TweetRow) (old : TweetRow),
    db.find? (tweetKeyMatch cid tid) = some old →
    (db.map (fun r => if tweetKeyMatch cid tid r then conflictUpdate r tw else r)).find?
        (tweetKeyMatch cid tid) = some (conflictUpdate old tw) := by
  intro db
  induction db with
  | nil => intro old h; simp at h
  | cons r rest ih =>
    intro old h
    by_cases hk : tweetKeyMatch cid tid r = true
    · rw [List.find?_cons_of_pos _ hk] at h
      cases h
      simp only [List.map_cons, if_pos hk]
      exact List.find?_cons_of_pos _ (by rw [tweetKeyMatch_conflictUpdate]; exact hk)
    · rw [List.find?_cons_of_neg _ hk] at h
      simp only [List.map_cons, if_neg hk]
      rw [List.find?_cons_of_neg _ hk]
      exact ih old h

lemma processTweets_append (dp : String → Option Int) (uf : NormTweet → Option String)
    (ct : Option Int) :
    ∀ (pre l2 : List RawTweet),
    (∀ x ∈ pre, cutoffHit ct (normalizeTweet dp x).created_at = false
      ∧ uf (normalizeTweet dp x) = none) →
    processTweets dp uf ct (pre ++ l2)
      = (pre.map (fun x => Ev.upsert (normalizeTweet dp x)) ++ (processTweets dp uf ct l2).1,
         (processTweets dp uf ct l2).2) := by
  intro pre
  induction pre with
  | nil => intro l2 _; simp
  | cons x rest ih =>
    intro l2 h
    have hx := h x (List.mem_cons_self x rest)
    have hrest : ∀ y ∈ rest, cutoffHit ct (normalizeTweet dp y).created_at = false
        ∧ uf (normalizeTweet dp y) = none :=
      fun y hy => h y (List.mem_cons_of_mem x hy)
    simp only [List.cons_append, processTweets, hx.1, hx.2, List.append_eq, ih l2 hrest,
      List.map_cons, Bool.false_eq_true, if_false]

lemma processTweets_cutoff_head (dp : String → Option Int) (uf : NormTweet → Option String)
    (ct : Option Int) (t : RawTweet) (post : List RawTweet)
    (h : cutoffHit ct (normalizeTweet dp t).created_at = true) :
    processTweets dp uf ct (t :: post) = ([], PageOutcome.cutoff) := by
  simp [processTweets, h]

lemma scanTweets_append (dp : String → Option Int) (uf : NormTweet → Option String)
    (stopId : Option String) :
    ∀ (pre l2 : List RawTweet),
    (∀ x ∈ pre, stopMatch stopId x = false ∧ uf (normalizeTweet dp x) = none) →
    scanTweets dp uf stopId (pre ++ l2)
      = (pre.map (fun x => Ev.upsert (normalizeTweet dp x)) ++ (scanTweets dp uf stopId l2).1,
         (scanTweets dp uf stopId l2).2) := by
  intro pre
  induction pre with
  | nil => intro l2 _; simp
  | cons x rest ih =>
    intro l2 h
    have hx := h x (List.mem_cons_self x rest)
    have hrest : ∀ y ∈ rest, stopMatch stopId y = false ∧ uf (normalizeTweet dp y) = none :=
      fun y hy => h y (List.mem_cons_of_mem x hy)
    simp only [List.cons_append, scanTweets, hx.1, hx.2, List.append_eq, ih l2 hrest,
      List.map_cons, Bool.false_eq_true, if_false]

/-! ## C7 -/

/-- C7: upserting a Post onto an existing (community, post-id) row keeps, for
each of the five data fields, the prior stored value whenever the incoming
value is null, and takes the incoming value exactly when it is non-null;
the row found under the key afterwards is the coalesced row. The incoming
text field of a normalized tweet is never null, so text is always taken. -/
theorem upsert_tweet_coalesce (db : List TweetRow) (communityId : String) (tw : NormTweet)
    (old : TweetRow) (h : lookupTweet db communityId tw.tweet_id = some old) :
    lookupTweet (upsertCommunityTweet db communityId tw) communityId tw.tweet_id
        = some (conflictUpdate old tw)
    ∧ (tw.created_at = none → (conflictUpdate old tw).created_at = old.created_at)
    ∧ (∀ v, tw.created_at = some v → (conflictUpdate old tw).created_at = some v)
    ∧ (tw.author_user_id = none → (conflictUpdate old tw).author_user_id = old.author_user_id)
    ∧ (∀ v, tw.author_user_id = some v → (conflictUpdate old tw).author_user_id = some v)
    ∧ (tw.author_username = none → (conflictUpdate old tw).author_username = old.author_username)
    ∧ (∀ v, tw.author_username = some v → (conflictUpdate old tw).author_username = some v)
    ∧ (tw.url = none → (conflictUpdate old tw).url = old.url)
    ∧ (∀ v, tw.url = some v → (conflictUpdate old tw).url = some v)
    ∧ (conflictUpdate old tw).text = some tw.text := by
  refine ⟨?_, ?_, ?_, ?_, ?_, ?_, ?_, ?_, ?_, ?_⟩
  · have hany : db.any (tweetKeyMatch communityId tw.tweet_id) = true := by
      rw [List.any_eq_true]
      exact ⟨old, List.mem_of_find?_eq_some h, List.find?_some h⟩
    unfold upsertCommunityTweet lookupTweet
    rw [if_pos hany]
    exact find?_map_conflict communityId tw.tweet_id tw db old h
  · intro hv; simp [conflictUpdate, sqlCoalesce, hv]
  · intro v hv; simp [conflictUpdate, sqlCoalesce, hv]
  · intro hv; simp [conflictUpdate, sqlCoalesce, hv]
  · intro v hv; simp [conflictUpdate, sqlCoalesce, hv]
  · intro hv; simp [conflictUpdate, sqlCoalesce, hv]
  · intro v hv; simp [conflictUpdate, sqlCoalesce, hv]
  · intro hv; simp [conflictUpdate, sqlCoalesce, hv]
  · intro v hv; simp [conflictUpdate, sqlCoalesce, hv]
  · simp [conflictUpdate, sqlCoalesce]

/-- Witness for C7: a stored row with a known handle, then an upsert whose
author handle is null; the handle survives and the non-null incoming url
overwrites. -/
theorem upsert_tweet_coalesce_witness :
    lookupTweet
        (upsertCommunityTweet
          [{ community_id := "c1", tweet_id := "T1", created_at := some 5,
             author_user_id := some "A", author_username := some "alice",
             url := none, text := some "hi" }]
          "c1"
          { tweet_id := "T1", url := some "u", text := "hi2", created_at := none,
            author_user_id := none, author_username := none })
        "c1" "T1"
      = some { community_id := "c1", tweet_id := "T1", created_at := some 5,
               author_user_id := some "A", author_username := some "alice",
               url := some "u", text := some "hi2" } := by
  have h := upsert_tweet_coalesce
    [{ community_id := "c1", tweet_id := "T1", created_at := some 5,
       author_user_id := some "A", author_username := some "alice",
       url := none, text := some "hi" }]
    "c1"
    { tweet_id := "T1", url := some "u", text := "hi2", created_at := none,
      author_user_id := none, author_username := none }
    { community_id := "c1", tweet_id := "T1", created_at := some 5,
      author_user_id := some "A", author_username := some "alice",
      url := none, text := some "hi" }
    (by decide)
  exact h.1

/-! ## C8 -/

/-- C8: a user payload whose identifier or handle is missing (JS-falsy) is
dropped silently by upsertUser: the store is returned unchanged, no row is
written, and no error is raised (the function is total and never reaches
a persistence statement). -/
theorem upsert_user_drops_incomplete (db : List UserRow) (u : RawUser)
    (h : optTruthy u.id = false ∨ optTruthy u.userName = false) :
    upsertUser db u = db := by
  cases hi : u.id with
  | none =>
    cases hn : u.userName with
    | none => simp [upsertUser, jsOrElse, hi, hn, optTruthy]
    | some t =>
      by_cases ht : t = "" <;> simp [upsertUser, jsOrElse, hi, hn, optTruthy, ht]
  | some s =>
    cases hn : u.userName with
    | none =>
      by_cases hs : s = "" <;> simp [upsertUser, jsOrElse, hi, hn, optTruthy, hs]
    | some t =>
      rw [hi, hn] at h
      rcases h with h | h
      · have hs : s = "" := by simpa [optTruthy] using h
        subst hs
        simp [upsertUser, jsOrElse, hi, hn, optTruthy]
      · have ht : t = "" := by simpa [optTruthy] using h
        subst ht
        by_cases hs : s = "" <;> simp [upsertUser, jsOrElse, hi, hn, optTruthy, hs]

/-- Witness for C8: a payload with an id but no handle performs zero
Profile upserts on a nonempty store. -/
theorem upsert_user_drops_incomplete_witness :
    upsertUser
        [{ user_id := "1", username := "alice", name := none, followers := 0,
           following := 0, profile_picture := none }]
        { id := some "2", userName := none, name := some "Bob", followers := some 7,
          following := some 3, profilePicture := none }
      = [{ user_id := "1", username := "alice", name := none, followers := 0,
           following := 0, profile_picture := none }] :=
  upsert_user_drops_incomplete _ _ (Or.inr (by decide))

/-! ## C10 -/

/-- C10: an item whose creation timestamp fails to parse (parseCreatedAt
returns null) bypasses the age-cutoff test entirely in the backfill page
loop: the test is false on a null created_at no matter what cutoff is
configured, the item is upserted, and the scan continues past it, so such
an item can never trigger the cutoff termination. -/
theorem backfill_unparsable_timestamp_bypasses_cutoff (dp : String → Option Int)
    (uf : NormTweet → Option String) (cutoffTs : Option Int)
    (pre post : List RawTweet) (t : RawTweet)
    (hparse : parseCreatedAt dp t.createdAt = none)
    (hpre : ∀ x ∈ pre, cutoffHit cutoffTs (normalizeTweet dp x).created_at = false
      ∧ uf (normalizeTweet dp x) = none)
    (hup : uf (normalizeTweet dp t) = none) :
    cutoffHit cutoffTs none = false
    ∧ processTweets dp uf cutoffTs (pre ++ t :: post)
        = ((pre ++ [t]).map (fun x => Ev.upsert (normalizeTweet dp x))
             ++ (processTweets dp uf cutoffTs post).1,
           (processTweets dp uf cutoffTs post).2) := by
  have hnone : cutoffHit cutoffTs none = false := by cases cutoffTs <;> rfl
  have hca : (normalizeTweet dp t).created_at = none := hparse
  refine ⟨hnone, ?_⟩
  have hall : ∀ x ∈ pre ++ [t], cutoffHit cutoffTs (normalizeTweet dp x).created_at = false
      ∧ uf (normalizeTweet dp x) = none := by
    intro x hx
    rcases List.mem_append.mp hx with hx | hx
    · exact hpre x hx
    · rcases List.mem_singleton.mp hx with rfl
      exact ⟨by rw [hca]; exact hnone, hup⟩
  have := processTweets_append dp uf cutoffTs (pre ++ [t]) post hall
  simpa using this

/-- Witness for C10: a configured cutoff at instant 50, a first item that
parses to 100 (kept), and a second item whose timestamp does not parse;
the unparsable item is upserted and the third item is still examined. -/
theorem backfill_unparsable_timestamp_bypasses_cutoff_witness :
    cutoffHit (some 50) none = false
    ∧ processTweets
        (fun s => if s = "good" then some 100 else none)
        (fun _ => none) (some 50)
        ([{ id := "T1", url := none, text := none, createdAt := some "good", author := none }]
          ++ { id := "T2", url := none, text := none, createdAt := some "garbage",
               author := none } ::
            [{ id := "T3", url := none, text := none, createdAt := some "good", author := none }])
      = (([{ id := "T1", url := none, text := none, createdAt := some "good", author := none },
           { id := "T2", url := none, text := none, createdAt := some "garbage",
             author := none }].map
            (fun x => Ev.upsert (normalizeTweet (fun s => if s = "good" then some 100 else none) x)))
           ++ (processTweets (fun s => if s = "good" then some 100 else none) (fun _ => none)
                (some 50)
                [{ id := "T3", url := none, text := none, createdAt := some "good",
                   author := none }]).1,
         (processTweets (fun s => if s = "good" then some 100 else none) (fun _ => none) (some 50)
            [{ id := "T3", url := none, text := none, createdAt := some "good",
               author := none }]).2) :=
  backfill_unparsable_timestamp_bypasses_cutoff _ _ _ _ _ _ (by decide) (by decide) (by decide)

/-! ## C3 -/

/-- C3: at any reachable backfill iteration with remaining page budget, if
the fetched page splits as pre ++ tK :: post where no item of pre passes
the cutoff test and tK is the first item whose parsed creation time
predates the configured cutoff, then the driver upserts exactly the items
of pre, skips tK and everything after it on that page, persists a null
cursor, and ends the run with no further fetch. -/
theorem backfill_cutoff_page (dp : String → Option Int) (cutoffTs : Option Int) (fuel : Nat)
    (cursor : Option String) (p : Page) (rest : List Page)
    (pre : List RawTweet) (tK : RawTweet) (post : List RawTweet)
    (hsplit : p.tweets = pre ++ tK :: post)
    (hpre : ∀ t ∈ pre, cutoffHit cutoffTs (normalizeTweet dp t).created_at = false)
    (hK : cutoffHit cutoffTs (normalizeTweet dp tK).created_at = true) :
    backfillLoop dp (fun _ => none) cutoffTs (fuel + 1) (p :: rest) cursor
      = (Ev.fetch cursor p ::
           pre.map (fun t => Ev.upsert (normalizeTweet dp t)) ++ [Ev.setCursor none],
         Except.ok ()) := by
  have hall : ∀ x ∈ pre, cutoffHit cutoffTs (normalizeTweet dp x).created_at = false
      ∧ (fun (_ : NormTweet) => (none : Option String)) (normalizeTweet dp x) = none :=
    fun x hx => ⟨hpre x hx, rfl⟩
  have hproc : processTweets dp (fun _ => none) cutoffTs p.tweets
      = (pre.map (fun t => Ev.upsert (normalizeTweet dp t)), PageOutcome.cutoff) := by
    rw [hsplit, processTweets_append dp (fun _ => none) cutoffTs pre (tK :: post) hall,
      processTweets_cutoff_head dp (fun _ => none) cutoffTs tK post hK]
    simp
  simp only [backfillLoop, List.headD_cons, hproc]

/-- Witness for C3: a cutoff at instant 50, a page whose first item parses
to 100 and whose second item parses to 10; only the first is upserted, the
cursor is set to null, and the run ends. -/
theorem backfill_cutoff_page_witness :
    backfillLoop (fun s => if s = "new" then some 100 else some 10) (fun _ => none) (some 50)
        (4 + 1)
        [{ tweets := [{ id := "T1", url := none, text := none, createdAt := some "new",
                        author := none },
                      { id := "T2", url := none, text := none, createdAt := some "old",
                        author := none },
                      { id := "T3", url := none, text := none, createdAt := some "old",
                        author := none }],
           has_next_page := true, next_cursor := some "CUR2" }]
        none
      = (Ev.fetch none
            { tweets := [{ id := "T1", url := none, text := none, createdAt := some "new",
                           author := none },
                         { id := "T2", url := none, text := none, createdAt := some "old",
                           author := none },
                         { id := "T3", url := none, text := none, createdAt := some "old",
                           author := none }],
              has_next_page := true, next_cursor := some "CUR2" } ::
          [{ id := "T1", url := none, text := none, createdAt := some "new",
             author := none }].map
            (fun t => Ev.upsert (normalizeTweet (fun s => if s = "new" then some 100 else some 10) t))
          ++ [Ev.setCursor none],
         Except.ok ()) :=
  backfill_cutoff_page _ _ 4 none _ []
    [{ id := "T1", url := none, text := none, createdAt := some "new", author := none }]
    { id := "T2", url := none, text := none, createdAt := some "old", author := none }
    [{ id := "T3", url := none, text := none, createdAt := some "old", author := none }]
    (by decide) (by decide) (by decide)

/-! ## C1 -/

lemma processTweets_shape (dp : String → Option Int) (uf : NormTweet → Option String)
    (ct : Option Int) :
    ∀ (l : List RawTweet),
    ∃ consumed suffix, l = consumed ++ suffix
      ∧ (processTweets dp uf ct l).1 = consumed.map (fun t => Ev.upsert (normalizeTweet dp t))
      ∧ ((processTweets dp uf ct l).2 = PageOutcome.completed → suffix = []) := by
  intro l
  induction l with
  | nil => exact ⟨[], [], rfl, rfl, fun _ => rfl⟩
  | cons t rest ih =>
    cases hcut : cutoffHit ct (normalizeTweet dp t).created_at with
    | true =>
      refine ⟨[], t :: rest, rfl, ?_, ?_⟩
      · simp [processTweets, hcut]
      · intro h; simp [processTweets, hcut] at h
    | false =>
      cases hu : uf (normalizeTweet dp t) with
      | some e =>
        refine ⟨[], t :: rest, rfl, ?_, ?_⟩
        · simp [processTweets, hcut, hu]
        · intro h; simp [processTweets, hcut, hu] at h
      | none =>
        obtain ⟨c, s, hls, hevs, hcomp⟩ := ih
        refine ⟨t :: c, s, by rw [List.cons_append, ← hls], ?_, ?_⟩
        · simp [processTweets, hcut, hu, hevs]
        · intro h
          apply hcomp
          simpa [processTweets, hcut, hu] using h

lemma foldl_check_upserts (dp : String → Option Int) :
    ∀ (a b : List NormTweet) (exp : Option String) (ok : Bool),
    List.foldl (checkStep dp) ⟨a ++ b, exp, ok⟩ (a.map Ev.upsert) = ⟨b, exp, ok⟩ := by
  intro a
  induction a with
  | nil => intro b exp ok; rfl
  | cons x rest ih =>
    intro b exp ok
    simp only [List.map_cons, List.foldl_cons]
    have hstep : checkStep dp ⟨(x :: rest) ++ b, exp, ok⟩ (Ev.upsert x) = ⟨rest ++ b, exp, ok⟩ := by
      simp [checkStep, eraseFirst]
    rw [hstep, ih]

lemma backfill_check_ok (dp : String → Option Int) (uf : NormTweet → Option String)
    (ct : Option Int) :
    ∀ (fuel : Nat) (pages : List Page) (cursor : Option String) (st : CheckSt),
    st.ok = true →
    (List.foldl (checkStep dp) st (backfillLoop dp uf ct fuel pages cursor).1).ok = true := by
  intro fuel
  induction fuel with
  | zero => intro pages cursor st hst; simpa [backfillLoop] using hst
  | succ n ih =>
    intro pages cursor st hst
    obtain ⟨consumed, suffix, hsplit, hevs, hcomp⟩ :=
      processTweets_shape dp uf ct (pages.headD emptyPage).tweets
    have hfold : List.foldl (checkStep dp) st
        (Ev.fetch cursor (pages.headD emptyPage) ::
          (processTweets dp uf ct (pages.headD emptyPage).tweets).1)
        = ⟨suffix.map (normalizeTweet dp), (pages.headD emptyPage).next_cursor, st.ok⟩ := by
      rw [List.foldl_cons, hevs]
      have hfetch : checkStep dp st (Ev.fetch cursor (pages.headD emptyPage))
          = ⟨(pages.headD emptyPage).tweets.map (normalizeTweet dp),
             (pages.headD emptyPage).next_cursor, st.ok⟩ := rfl
      rw [hfetch, hsplit, List.map_append,
        show consumed.map (fun t => Ev.upsert (normalizeTweet dp t))
          = (consumed.map (normalizeTweet dp)).map Ev.upsert from (List.map_map _ _ _).symm]
      exact foldl_check_upserts dp (consumed.map (normalizeTweet dp))
        (suffix.map (normalizeTweet dp)) _ _
    cases hout : (processTweets dp uf ct (pages.headD emptyPage).tweets).2 with
    | failed e =>
      simp only [backfillLoop, hout]
      rw [hfold]
      exact hst
    | cutoff =>
      simp only [backfillLoop, hout]
      rw [show Ev.fetch cursor (pages.headD emptyPage) ::
            (processTweets dp uf ct (pages.headD emptyPage).tweets).1 ++ [Ev.setCursor none]
          = (Ev.fetch cursor (pages.headD emptyPage) ::
              (processTweets dp uf ct (pages.headD emptyPage).tweets).1) ++ [Ev.setCursor none]
          from rfl,
        List.foldl_append, hfold]
      exact hst
    | completed =>
      have hsuf : suffix = [] := hcomp hout
      subst hsuf
      simp only [List.map_nil] at hfold
      cases hbr : (!(pages.headD emptyPage).has_next_page
          || !optTruthy (pages.headD emptyPage).next_cursor) with
      | true =>
        simp only [backfillLoop, hout, hbr, if_true]
        rw [List.foldl_append, hfold]
        exact hst
      | false =>
        have htr : optTruthy (pages.headD emptyPage).next_cursor = true := by
          have h2 := (Bool.or_eq_false_iff.mp hbr).2
          simpa using h2
        cases hc : (pages.headD emptyPage).next_cursor with
        | none => rw [hc] at htr; simp [optTruthy] at htr
        | some c =>
          rw [hc] at hfold hbr
          simp only [backfillLoop, hout, hc, hbr, Bool.false_eq_true, if_false]
          rw [List.foldl_append, hfold, List.foldl_cons]
          have hstep : checkStep dp ⟨[], some c, st.ok⟩ (Ev.setCursor (some c))
              = ⟨[], some c, true⟩ := by
            simp [checkStep, hst]
          rw [hstep]
          exact ih pages.tail (some c) ⟨[], some c, true⟩ rfl

/-- C1: in every backfill run, whatever the page responses, the cutoff
configuration, and the set of failing upserts, the cursor-write discipline
holds on the emitted trace: whenever the stored backfill cursor is
advanced to a non-null cursor, the page fetched last has had all of its
normalized items upserted, and the cursor written is exactly the next
cursor announced by that fully-written page. Terminal null-cursor writes
mark completion and advance to no page. -/
theorem backfill_cursor_discipline (dp : String → Option Int) (uf : NormTweet → Option String)
    (backfillCutoffDays now : Int) (pagesPerRun : Nat) (storedCursor : Option String)
    (pages : List Page) :
    cursorDiscipline dp
        (backfill dp uf backfillCutoffDays now pagesPerRun storedCursor pages).1 = true := by
  unfold backfill cursorDiscipline
  exact backfill_check_ok dp uf _ pagesPerRun pages _ ⟨[], none, true⟩ rfl

/-! ## C2 -/

lemma scanTweets_evs_upserts (dp : String → Option Int) (uf : NormTweet → Option String)
    (stopId : Option String) :
    ∀ (l : List RawTweet), ∀ e ∈ (scanTweets dp uf stopId l).1, isSetLastSeen e = false := by
  intro l
  induction l with
  | nil => intro e he; simp [scanTweets] at he
  | cons t rest ih =>
    intro e he
    cases hm : stopMatch stopId t with
    | true => simp only [scanTweets, hm, if_true] at he; simp at he
    | false =>
      cases hu : uf (normalizeTweet dp t) with
      | some er =>
        simp only [scanTweets, hm, Bool.false_eq_true, if_false, hu] at he
        simp at he
      | none =>
        simp only [scanTweets, hm, Bool.false_eq_true, if_false, hu] at he
        rcases List.mem_cons.mp he with rfl | he
        · rfl
        · exact ih e he

lemma pageCandidate_false (p : Page) (nls : Option String) :
    pageCandidate false p nls = nls := rfl

lemma ingestLoop_nls_const (dp : String → Option Int) (uf : NormTweet → Option String)
    (stopId : Option String) :
    ∀ (fuel : Nat) (pages : List Page) (cursor nls : Option String),
    (ingestLoop dp uf stopId fuel pages cursor false nls).2.1 = nls := by
  intro fuel
  induction fuel with
  | zero => intro pages cursor nls; rfl
  | succ n ih =>
    intro pages cursor nls
    rw [ingestLoop]
    cases hout : (scanTweets dp uf stopId (pages.headD emptyPage).tweets).2 with
    | failed e => rfl
    | stopped => rfl
    | completed =>
      cases hbr : (!(pages.headD emptyPage).has_next_page
          || !optTruthy (pages.headD emptyPage).next_cursor) with
      | true => rfl
      | false => exact ih pages.tail (pages.headD emptyPage).next_cursor nls

lemma ingestLoop_no_setLastSeen (dp : String → Option Int) (uf : NormTweet → Option String)
    (stopId : Option String) :
    ∀ (fuel : Nat) (pages : List Page) (cursor nls : Option String) (first : Bool),
    ∀ e ∈ (ingestLoop dp uf stopId fuel pages cursor first nls).1, isSetLastSeen e = false := by
  intro fuel
  induction fuel with
  | zero => intro pages cursor nls first e he; simp [ingestLoop] at he
  | succ n ih =>
    intro pages cursor nls first e he
    rw [ingestLoop] at he
    cases hout : (scanTweets dp uf stopId (pages.headD emptyPage).tweets).2 with
    | failed er =>
      rw [hout] at he
      rcases List.mem_cons.mp he with rfl | he
      · rfl
      · exact scanTweets_evs_upserts dp uf stopId _ e he
    | stopped =>
      rw [hout] at he
      rcases List.mem_cons.mp he with rfl | he
      · rfl
      · exact scanTweets_evs_upserts dp uf stopId _ e he
    | completed =>
      rw [hout] at he
      cases hbr : (!(pages.headD emptyPage).has_next_page
          || !optTruthy (pages.headD emptyPage).next_cursor) with
      | true =>
        rw [hbr] at he
        rcases List.mem_cons.mp he with rfl | he
        · rfl
        · exact scanTweets_evs_upserts dp uf stopId _ e he
      | false =>
        rw [hbr] at he
        rcases List.mem_cons.mp he with rfl | he
        · rfl
        · rcases List.mem_append.mp he with he | he
          · exact scanTweets_evs_upserts dp uf stopId _ e he
          · exact ih _ _ _ _ e he

lemma scanTweets_success_no_fail (dp : String → Option Int) (stopId : Option String) :
    ∀ (l : List RawTweet) (e : String),
    (scanTweets dp (fun _ => none) stopId l).2 = ScanOutcome.failed e → False := by
  intro l
  induction l with
  | nil => intro e h; simp [scanTweets] at h
  | cons t rest ih =>
    intro e h
    cases hm : stopMatch stopId t with
    | true =>
      simp only [scanTweets, hm, if_true] at h
      exact ScanOutcome.noConfusion h
    | false =>
      simp only [scanTweets, hm, Bool.false_eq_true, if_false] at h
      exact ih e h

lemma ingestLoop_success_ok (dp : String → Option Int) (stopId : Option String) :
    ∀ (fuel : Nat) (pages : List Page) (cursor nls : Option String) (first : Bool),
    (ingestLoop dp (fun _ => none) stopId fuel pages cursor first nls).2.2 = Except.ok () := by
  intro fuel
  induction fuel with
  | zero => intro pages cursor nls first; rfl
  | succ n ih =>
    intro pages cursor nls first
    rw [ingestLoop]
    cases hout : (scanTweets dp (fun _ => none) stopId (pages.headD emptyPage).tweets).2 with
    | failed e => exact absurd hout (fun h => scanTweets_success_no_fail dp stopId _ e h)
    | stopped => rfl
    | completed =>
      cases hbr : (!(pages.headD emptyPage).has_next_page
          || !optTruthy (pages.headD emptyPage).next_cursor) with
      | true => rfl
      | false => exact ih pages.tail (pages.headD emptyPage).next_cursor _ false

lemma ingestLoop_first_candidate (dp : String → Option Int) (uf : NormTweet → Option String)
    (stopId : Option String) :
    ∀ (fuel : Nat) (pages : List Page) (cursor nls : Option String),
    (ingestLoop dp uf stopId (fuel + 1) pages cursor true nls).2.1
      = pageCandidate true (pages.headD emptyPage) nls := by
  intro fuel pages cursor nls
  rw [ingestLoop]
  cases hout : (scanTweets dp uf stopId (pages.headD emptyPage).tweets).2 with
  | failed e => rfl
  | stopped => rfl
  | completed =>
    cases hbr : (!(pages.headD emptyPage).has_next_page
        || !optTruthy (pages.headD emptyPage).next_cursor) with
    | true => rfl
    | false =>
      exact ingestLoop_nls_const dp uf stopId fuel pages.tail
        (pages.headD emptyPage).next_cursor _

/-- C2: in every ingest-new run without storage failures, the trace ends
with exactly one watermark write, carrying the identifier of the first
item of the very first page, whenever that page has a first item with a
truthy id — regardless of how the loop ended (watermark match, page
exhaustion, or page budget); and when no candidate was captured (empty
first page, untruthy first id, or zero page budget), the trace contains
no watermark write at all, leaving the stored watermark unchanged. -/
theorem ingest_watermark_capture (dp : String → Option Int) (topPages : Nat)
    (lastSeen : Option String) (pages : List Page) :
    ∃ body, (ingestNew dp (fun _ => none) topPages lastSeen pages).1
        = body ++ (match ingestCandidate topPages pages with
                   | some w => [Ev.setLastSeen w]
                   | none => [])
      ∧ ∀ e ∈ body, isSetLastSeen e = false := by
  refine ⟨(ingestLoop dp (fun _ => none) (jsOrElse lastSeen none) topPages pages none true
      none).1, ?_, ?_⟩
  · have hcand : (ingestLoop dp (fun _ => none) (jsOrElse lastSeen none) topPages pages none
        true none).2.1 = ingestCandidate topPages pages := by
      cases topPages with
      | zero => rfl
      | succ n =>
        rw [ingestLoop_first_candidate]
        rfl
    simp only [ingestNew,
      ingestLoop_success_ok dp (jsOrElse lastSeen none) topPages pages none none true, hcand]
  · exact ingestLoop_no_setLastSeen dp (fun _ => none) (jsOrElse lastSeen none)
      topPages pages none none true



/-! ## C4 -/

lemma stopMatch_of_ne (w : String) (u : RawTweet) (h : u.id ≠ w) :
    stopMatch (some w) u = false := by
  simp [stopMatch, h]

lemma scanTweets_stop_split (dp : String → Option Int) (w : String)
    (pre : List RawTweet) (t : RawTweet) (post : List RawTweet)
    (hw : w ≠ "") (hpre : ∀ u ∈ pre, u.id ≠ w) (ht : t.id = w) :
    scanTweets dp (fun _ => none) (some w) (pre ++ t :: post)
      = (pre.map (fun u => Ev.upsert (normalizeTweet dp u)), ScanOutcome.stopped) := by
  have hall : ∀ x ∈ pre, stopMatch (some w) x = false
      ∧ (fun (_ : NormTweet) => (none : Option String)) (normalizeTweet dp x) = none :=
    fun x hx => ⟨stopMatch_of_ne w x (hpre x hx), rfl⟩
  rw [scanTweets_append dp (fun _ => none) (some w) pre (t :: post) hall]
  have hmatch : stopMatch (some w) t = true := by
    simp [stopMatch, hw, ht]
  rw [scanTweets, if_pos hmatch]
  simp

lemma scanTweets_no_match (dp : String → Option Int) (w : String) (l : List RawTweet)
    (h : ∀ u ∈ l, u.id ≠ w) :
    scanTweets dp (fun _ => none) (some w) l
      = (l.map (fun u => Ev.upsert (normalizeTweet dp u)), ScanOutcome.completed) := by
  have hall : ∀ x ∈ l, stopMatch (some w) x = false
      ∧ (fun (_ : NormTweet) => (none : Option String)) (normalizeTweet dp x) = none :=
    fun x hx => ⟨stopMatch_of_ne w x (h x hx), rfl⟩
  have := scanTweets_append dp (fun _ => none) (some w) l [] hall
  simpa [scanTweets] using this

/-- C4: with a non-null previous watermark, the ingest-new page loop scans
items in page order. First conjunct: on the page containing the first item
whose identifier equals the watermark, exactly the items strictly before
the match are upserted, the matching item is not upserted, and the run
requests no further page. Second conjunct: a page with no matching item
(and a truthy next page) has every item upserted before the next page is
requested, so all items seen before the eventual match are persisted. -/
theorem ingest_stop_at_watermark :
    (∀ (dp : String → Option Int) (w : String) (fuel : Nat) (cursor : Option String)
       (first : Bool) (nls : Option String) (p : Page) (rest : List Page)
       (pre : List RawTweet) (t : RawTweet) (post : List RawTweet),
     w ≠ "" → p.tweets = pre ++ t :: post → (∀ u ∈ pre, u.id ≠ w) → t.id = w →
     ingestLoop dp (fun _ => none) (some w) (fuel + 1) (p :: rest) cursor first nls
       = (Ev.fetch cursor p :: pre.map (fun u => Ev.upsert (normalizeTweet dp u)),
          pageCandidate first p nls, Except.ok ()))
    ∧ (∀ (dp : String → Option Int) (w : String) (fuel : Nat) (cursor : Option String)
         (first : Bool) (nls : Option String) (p : Page) (rest : List Page),
       (∀ u ∈ p.tweets, u.id ≠ w) → p.has_next_page = true → optTruthy p.next_cursor = true →
       ingestLoop dp (fun _ => none) (some w) (fuel + 1) (p :: rest) cursor first nls
         = (Ev.fetch cursor p ::
              (p.tweets.map (fun u => Ev.upsert (normalizeTweet dp u))
                ++ (ingestLoop dp (fun _ => none) (some w) fuel rest p.next_cursor false
                     (pageCandidate first p nls)).1),
            (ingestLoop dp (fun _ => none) (some w) fuel rest p.next_cursor false
              (pageCandidate first p nls)).2)) := by
  constructor
  · intro dp w fuel cursor first nls p rest pre t post hw hsplit hpre ht
    have hscan : scanTweets dp (fun _ => none) (some w) p.tweets
        = (pre.map (fun u => Ev.upsert (normalizeTweet dp u)), ScanOutcome.stopped) := by
      rw [hsplit]
      exact scanTweets_stop_split dp w pre t post hw hpre ht
    rw [ingestLoop]
    simp only [List.headD_cons, List.tail_cons, hscan]
  · intro dp w fuel cursor first nls p rest hno hnext htr
    have hscan : scanTweets dp (fun _ => none) (some w) p.tweets
        = (p.tweets.map (fun u => Ev.upsert (normalizeTweet dp u)), ScanOutcome.completed) :=
      scanTweets_no_match dp w p.tweets hno
    rw [ingestLoop]
    simp only [List.headD_cons, List.tail_cons, hscan, hnext, htr, Bool.not_true,
      Bool.or_self, Bool.false_eq_true, if_false, List.cons_append]

/-- Witness for C4: both conjuncts at concrete pages, including a run whose
second page holds the watermark match; the matched item T9 is not
upserted and no third page is fetched. -/
theorem ingest_stop_at_watermark_witness :
    ingestLoop (fun _ => some 1) (fun _ => none) (some "T9") (2 + 1)
        [{ tweets := [{ id := "T8", url := none, text := none, createdAt := none,
                        author := none },
                      { id := "T9", url := none, text := none, createdAt := none,
                        author := none },
                      { id := "T7", url := none, text := none, createdAt := none,
                        author := none }],
           has_next_page := true, next_cursor := some "C2" }]
        none true none
      = (Ev.fetch none
            { tweets := [{ id := "T8", url := none, text := none, createdAt := none,
                           author := none },
                         { id := "T9", url := none, text := none, createdAt := none,
                           author := none },
                         { id := "T7", url := none, text := none, createdAt := none,
                           author := none }],
              has_next_page := true, next_cursor := some "C2" } ::
           [{ id := "T8", url := none, text := none, createdAt := none, author := none }].map
             (fun u => Ev.upsert (normalizeTweet (fun _ => some 1) u)),
         pageCandidate true
            { tweets := [{ id := "T8", url := none, text := none, createdAt := none,
                           author := none },
                         { id := "T9", url := none, text := none, createdAt := none,
                           author := none },
                         { id := "T7", url := none, text := none, createdAt := none,
                           author := none }],
              has_next_page := true, next_cursor := some "C2" } none,
         Except.ok ())
    ∧ ingestLoop (fun _ => some 1) (fun _ => none) (some "T9") (1 + 1)
        [{ tweets := [{ id := "T8", url := none, text := none, createdAt := none,
                        author := none }],
           has_next_page := true, next_cursor := some "C2" }]
        none false none
      = (Ev.fetch none
            { tweets := [{ id := "T8", url := none, text := none, createdAt := none,
                           author := none }],
              has_next_page := true, next_cursor := some "C2" } ::
           ([{ id := "T8", url := none, text := none, createdAt := none, author := none }].map
              (fun u => Ev.upsert (normalizeTweet (fun _ => some 1) u))
             ++ (ingestLoop (fun _ => some 1) (fun _ => none) (some "T9") 1 [] (some "C2")
                  false
                  (pageCandidate false
                    { tweets := [{ id := "T8", url := none, text := none, createdAt := none,
                                   author := none }],
                      has_next_page := true, next_cursor := some "C2" } none)).1),
         (ingestLoop (fun _ => some 1) (fun _ => none) (some "T9") 1 [] (some "C2") false
            (pageCandidate false
              { tweets := [{ id := "T8", url := none, text := none, createdAt := none,
                             author := none }],
                has_next_page := true, next_cursor := some "C2" } none)).2) :=
  ⟨ingest_stop_at_watermark.1 (fun _ => some 1) "T9" 2 none true none _ []
      [{ id := "T8", url := none, text := none, createdAt := none, author := none }]
      { id := "T9", url := none, text := none, createdAt := none, author := none }
      [{ id := "T7", url := none, text := none, createdAt := none, author := none }]
      (by decide) (by decide) (by decide) (by decide),
   ingest_stop_at_watermark.2 (fun _ => some 1) "T9" 1 none false none _ []
      (by decide) (by decide) (by decide)⟩

/-! ## C5 -/

/-- Backoff trace of a run of consecutive 429 responses, starting with the
attempt counter at a and allowing k further retries: each retried attempt
sleeps minIntervalMs plus one second times its attempt number (linear in
the attempt) and then re-applies the pacing gate; the last entry is the
attempt past the bound, which is not retried. -/
def retrySchedule (minIntervalMs : Int) : Nat → Nat → List NetEv
  | a, 0 => [NetEv.request (a + 1)]
  | a, k + 1 =>
    NetEv.request (a + 1) :: NetEv.sleepMs (minIntervalMs + ((a + 1 : Nat) : Int) * 1000) ::
      NetEv.pace :: retrySchedule minIntervalMs (a + 1) k

lemma resOk_429 : resOk 429 = false := rfl

lemma getLoop_429_step (minIntervalMs : Int) (retries : Nat) (path : String) (r : HttpResp)
    (rest : List HttpResp) (a : Nat) (hst : r.status = 429) (hle : a + 1 ≤ retries) :
    getLoop minIntervalMs retries path (r :: rest) a
      = (NetEv.request (a + 1) ::
           NetEv.sleepMs (minIntervalMs + ((a + 1 : Nat) : Int) * 1000) ::
           NetEv.pace :: (getLoop minIntervalMs retries path rest (a + 1)).1,
         (getLoop minIntervalMs retries path rest (a + 1)).2) := by
  simp [getLoop, hst, hle]

lemma getLoop_429_over (minIntervalMs : Int) (retries : Nat) (path : String) (r : HttpResp)
    (rest : List HttpResp) (a : Nat) (hst : r.status = 429) (hnle : ¬ (a + 1 ≤ retries)) :
    getLoop minIntervalMs retries path (r :: rest) a
      = ([NetEv.request (a + 1)], GetResult.err (httpErrMsg r ++ " @ " ++ path)) := by
  simp [getLoop, hst, hnle, resOk_429]

lemma getLoop_429_exhaust (minIntervalMs : Int) (path : String) (r : HttpResp)
    (hst : r.status = 429) :
    ∀ (k a : Nat) (rest : List HttpResp),
    getLoop minIntervalMs (a + k) path (List.replicate (k + 1) r ++ rest) a
      = (retrySchedule minIntervalMs a k,
         GetResult.err (httpErrMsg r ++ " @ " ++ path)) := by
  intro k
  induction k with
  | zero =>
    intro a rest
    rw [List.replicate_one, List.singleton_append,
      getLoop_429_over minIntervalMs (a + 0) path r rest a hst (by omega)]
    rfl
  | succ j ih =>
    intro a rest
    have hshape : List.replicate (j + 1 + 1) r ++ rest
        = r :: (List.replicate (j + 1) r ++ rest) := by
      rw [List.replicate_succ, List.cons_append]
    rw [hshape, show a + (j + 1) = (a + 1) + j from by omega,
      getLoop_429_step minIntervalMs ((a + 1) + j) path r (List.replicate (j + 1) r ++ rest) a
        hst (by omega),
      ih (a + 1) rest]
    rfl

/-- C5 counterexample: there is no distinct RateLimited error. With a retry
bound of 2, three straight 429 responses exhaust the budget and the call
fails with a result that is literally equal to the one produced by a
single generic 500 response carrying the same body — the same plain Error
value, distinguishable only by its message text. -/
theorem rate_limit_error_not_distinct :
    (apiGet 5200 2 "/twitter/community/tweets"
        (List.replicate 3 { status := 429, message := some "Too Many Requests",
                            msg := none, bodyStatus := none })).2
      = (apiGet 5200 2 "/twitter/community/tweets"
          [{ status := 500, message := some "Too Many Requests", msg := none,
             bodyStatus := none }]).2
    ∧ (apiGet 5200 2 "/twitter/community/tweets"
        (List.replicate 3 { status := 429, message := some "Too Many Requests",
                            msg := none, bodyStatus := none })).2
      = GetResult.err "Too Many Requests @ /twitter/community/tweets" := by
  exact ⟨by decide, by decide⟩

/-- C5 (amended): on HTTP 429 the client retries up to the configured
bound, sleeping minIntervalMs plus attempt times 1000 ms before each retry
(linear growth in the attempt number) and re-applying the pacing gate; the
429 on the attempt past the bound is not retried and fails through the
same generic non-2xx error path as any other HTTP failure, producing a
plain Error whose message is the body message (or HTTP status) plus the
path — there is no distinct RateLimited error. -/
theorem rate_limit_retry_then_generic_error (minIntervalMs : Int) (retries : Nat)
    (path : String) (message msg bodyStatus : Option String) (rest : List HttpResp) :
    apiGet minIntervalMs retries path
        (List.replicate (retries + 1)
          { status := 429, message := message, msg := msg, bodyStatus := bodyStatus } ++ rest)
      = (NetEv.pace :: retrySchedule minIntervalMs 0 retries,
         GetResult.err
           (httpErrMsg { status := 429, message := message, msg := msg,
                         bodyStatus := bodyStatus } ++ " @ " ++ path)) := by
  unfold apiGet
  have h := getLoop_429_exhaust minIntervalMs path
    { status := 429, message := message, msg := msg, bodyStatus := bodyStatus } rfl retries 0 rest
  rw [Nat.zero_add] at h
  rw [h]

/-! ## C6 -/

lemma paceStep_ge (minIntervalMs lastTs now drift : Int) (hd : 0 ≤ drift) :
    lastTs + minIntervalMs ≤ paceStep minIntervalMs lastTs now drift := by
  unfold paceStep
  by_cases h : lastTs + minIntervalMs - now > 0
  · rw [if_pos h]; omega
  · rw [if_neg h]; omega

lemma clientRunTimes_getLastD_ge (minIntervalMs : Int) :
    ∀ (calls : List CallEnv) (lastTs d0 : Int), (∀ c ∈ calls, 0 ≤ c.drift) → calls ≠ [] →
    lastTs + (calls.length : Int) * minIntervalMs
      ≤ (clientRunTimes minIntervalMs lastTs calls).getLastD d0 := by
  intro calls
  induction calls with
  | nil => intro lastTs d0 _ hne; exact absurd rfl hne
  | cons c rest ih =>
    intro lastTs d0 h _
    have hstep := paceStep_ge minIntervalMs lastTs c.now c.drift
      (h c (List.mem_cons_self c rest))
    rw [clientRunTimes, List.getLastD_cons]
    cases hr : rest with
    | nil =>
      subst hr
      simp only [clientRunTimes, List.getLastD_nil, List.length_cons, List.length_nil]
      push_cast
      linarith
    | cons d ds =>
      subst hr
      have hrest : ∀ x ∈ d :: ds, 0 ≤ x.drift :=
        fun x hx => h x (List.mem_cons_of_mem c hx)
      have hih := ih (paceStep minIntervalMs lastTs c.now c.drift)
        (paceStep minIntervalMs lastTs c.now c.drift) hrest (List.cons_ne_nil d ds)
      simp only [List.length_cons] at hih ⊢
      push_cast at hih ⊢
      linarith

lemma clientRunTimes_endpoint_irrelevant (minIntervalMs : Int) :
    ∀ (calls : List CallEnv) (lastTs : Int),
    clientRunTimes minIntervalMs lastTs (calls.map (fun c => ⟨"", c.now, c.drift⟩))
      = clientRunTimes minIntervalMs lastTs calls := by
  intro calls
  induction calls with
  | nil => intro lastTs; rfl
  | cons c rest ih =>
    intro lastTs
    simp only [List.map_cons, clientRunTimes, ih]

/-- C6: the request-start times of N consecutive calls through one shared
client instance, under monotone clocks and at-least sleeps, satisfy the
pacing bound: the start of the last request is at least (N minus 1) times
the minimum interval after the start of the first, because the gate
suspends for the missing remainder whenever the elapsed time since the
previous request start is below the minimum interval; and the start times
do not depend on which endpoints the calls address (the gate is global,
not per-endpoint). -/
theorem pacing_minimum_interval (minIntervalMs lastTs0 : Int) (calls : List CallEnv)
    (hmin : 0 ≤ minIntervalMs) (hd : ∀ c ∈ calls, 0 ≤ c.drift) :
    ((calls.length : Int) - 1) * minIntervalMs
        ≤ (clientRunTimes minIntervalMs lastTs0 calls).getLastD lastTs0
          - (clientRunTimes minIntervalMs lastTs0 calls).headD lastTs0
    ∧ clientRunTimes minIntervalMs lastTs0 calls
        = clientRunTimes minIntervalMs lastTs0
            (calls.map (fun c => ⟨"", c.now, c.drift⟩)) := by
  constructor
  · cases hc : calls with
    | nil =>
      simp only [clientRunTimes, List.getLastD_nil, List.headD_nil, List.length_nil]
      push_cast
      linarith
    | cons c rest =>
      subst hc
      rw [clientRunTimes, List.getLastD_cons, List.headD_cons]
      cases hr : rest with
      | nil =>
        subst hr
        simp only [clientRunTimes, List.getLastD_nil, List.length_cons, List.length_nil]
        push_cast
        linarith
      | cons d ds =>
        subst hr
        have hrest : ∀ x ∈ d :: ds, 0 ≤ x.drift :=
          fun x hx => hd x (List.mem_cons_of_mem c hx)
        have hih := clientRunTimes_getLastD_ge minIntervalMs (d :: ds)
          (paceStep minIntervalMs lastTs0 c.now c.drift)
          (paceStep minIntervalMs lastTs0 c.now c.drift) hrest (List.cons_ne_nil d ds)
        simp only [List.length_cons] at hih ⊢
        push_cast at hih ⊢
        linarith
  · exact (clientRunTimes_endpoint_irrelevant minIntervalMs calls lastTs0).symm

/-- Witness for C6: three calls to two different endpoints through one
client with a 5 ms minimum interval and tight clocks; the computed start
times are 5, 10, 20, and 20 minus 5 is at least 2 times 5. -/
theorem pacing_minimum_interval_witness :
    ((([⟨"/a", 0, 0⟩, ⟨"/b", 3, 0⟩, ⟨"/a", 20, 0⟩] : List CallEnv).length : Int) - 1) * 5
        ≤ (clientRunTimes 5 0 [⟨"/a", 0, 0⟩, ⟨"/b", 3, 0⟩, ⟨"/a", 20, 0⟩]).getLastD 0
          - (clientRunTimes 5 0 [⟨"/a", 0, 0⟩, ⟨"/b", 3, 0⟩, ⟨"/a", 20, 0⟩]).headD 0
    ∧ clientRunTimes 5 0 [⟨"/a", 0, 0⟩, ⟨"/b", 3, 0⟩, ⟨"/a", 20, 0⟩]
        = clientRunTimes 5 0
            (([⟨"/a", 0, 0⟩, ⟨"/b", 3, 0⟩, ⟨"/a", 20, 0⟩] : List CallEnv).map
              (fun c => ⟨"", c.now, c.drift⟩)) :=
  pacing_minimum_interval 5 0 [⟨"/a", 0, 0⟩, ⟨"/b", 3, 0⟩, ⟨"/a", 20, 0⟩]
    (by decide) (by decide)

/-! ## C9 -/

lemma refreshOne_filter (fenv : String → Except String UserResp) (uuf : RawUser → Option String)
    (username : String) :
    (refreshOne fenv uuf username).filter isFetchUser = [UEv.fetchUser username] := by
  cases hf : fenv username with
  | error e => simp [refreshOne, hf, isFetchUser]
  | ok d =>
    cases hc : chooseUserPayload d with
    | none => simp [refreshOne, hf, hc, isFetchUser]
    | some u =>
      cases hu : uuf u with
      | some e => simp [refreshOne, hf, hc, hu, isFetchUser]
      | none => simp [refreshOne, hf, hc, hu, isFetchUser]

lemma refreshUsers_cons (fenv : String → Except String UserResp) (uuf : RawUser → Option String)
    (u : String) (rest : List String) :
    refreshUsers fenv uuf (u :: rest) = refreshOne fenv uuf u ++ refreshUsers fenv uuf rest := by
  simp [refreshUsers]

lemma cutoffHit_none (created_at : Option Int) : cutoffHit none created_at = false := rfl

lemma stopMatch_none (t : RawTweet) : stopMatch none t = false := rfl

lemma upsertAllMetrics_fail_split (mf : MetricRaw → Option String) (e : String) :
    ∀ (pre : List MetricRaw) (m : MetricRaw) (post : List MetricRaw),
    (∀ x ∈ pre, mf x = none) → mf m = some e →
    upsertAllMetrics mf (pre ++ m :: post) = (pre.map MEv.upsertM, some e) := by
  intro pre
  induction pre with
  | nil =>
    intro m post _ hm
    simp [upsertAllMetrics, hm]
  | cons x rest ih =>
    intro m post h hm
    have hx := h x (List.mem_cons_self x rest)
    have hrest : ∀ y ∈ rest, mf y = none := fun y hy => h y (List.mem_cons_of_mem x hy)
    simp only [List.cons_append, upsertAllMetrics, hx, List.append_eq, ih m post hrest hm,
      List.map_cons]

lemma processMembers_fail_split (uuf muf : RawUser → Option String) (e : String) :
    ∀ (pre : List RawUser) (m : RawUser) (post : List RawUser),
    (∀ x ∈ pre, uuf x = none ∧ muf x = none) → uuf m = some e →
    processMembers uuf muf (pre ++ m :: post)
      = (pre.flatMap (fun x => [SEv.upsertUserEv x, SEv.upsertMember (jsString x.id) x.userName]),
         some e) := by
  intro pre
  induction pre with
  | nil =>
    intro m post _ hm
    simp [processMembers, hm]
  | cons x rest ih =>
    intro m post h hm
    have hx := h x (List.mem_cons_self x rest)
    have hrest : ∀ y ∈ rest, uuf y = none ∧ muf y = none :=
      fun y hy => h y (List.mem_cons_of_mem x hy)
    simp only [List.cons_append, processMembers, hx.1, hx.2, List.append_eq,
      ih m post hrest hm, List.flatMap_cons, List.cons_append, List.nil_append]

/-- C9: partial-failure isolation is specific to the users refresh driver.
Conjuncts one to three: the refresh-users loop attempts every selected
handle exactly once no matter which handles fail, and a fetch failure or a
profile upsert failure for one handle yields a logged warning for that
handle and nothing else, so later handles are still processed. Conjuncts
four to seven: in each of the other drivers (backfill, ingest-new,
refresh-metrics, sync-members) a persistence failure at any item unwinds
the whole run at that point — the events stop with the items before the
failing one and the run returns the error. -/
theorem refresh_users_failure_isolation :
    (∀ (fenv : String → Except String UserResp) (uuf : RawUser → Option String)
       (usernames : List String),
     (refreshUsers fenv uuf usernames).filter isFetchUser = usernames.map UEv.fetchUser)
    ∧ (∀ (fenv : String → Except String UserResp) (uuf : RawUser → Option String)
         (username e : String),
       fenv username = Except.error e →
       refreshOne fenv uuf username = [UEv.fetchUser username, UEv.warn username e])
    ∧ (∀ (fenv : String → Except String UserResp) (uuf : RawUser → Option String)
         (username : String) (d : UserResp) (u : RawUser) (e : String),
       fenv username = Except.ok d → chooseUserPayload d = some u → uuf u = some e →
       refreshOne fenv uuf username = [UEv.fetchUser username, UEv.warn username e])
    ∧ (∀ (dp : String → Option Int) (uf : NormTweet → Option String) (fuel : Nat)
         (cursor : Option String) (p : Page) (rest : List Page)
         (pre : List RawTweet) (t : RawTweet) (post : List RawTweet) (e : String),
       p.tweets = pre ++ t :: post → (∀ x ∈ pre, uf (normalizeTweet dp x) = none) →
       uf (normalizeTweet dp t) = some e →
       backfillLoop dp uf none (fuel + 1) (p :: rest) cursor
         = (Ev.fetch cursor p :: pre.map (fun x => Ev.upsert (normalizeTweet dp x)),
            Except.error e))
    ∧ (∀ (dp : String → Option Int) (uf : NormTweet → Option String) (fuel : Nat)
         (cursor : Option String) (first : Bool) (nls : Option String) (p : Page)
         (rest : List Page) (pre : List RawTweet) (t : RawTweet) (post : List RawTweet)
         (e : String),
       p.tweets = pre ++ t :: post → (∀ x ∈ pre, uf (normalizeTweet dp x) = none) →
       uf (normalizeTweet dp t) = some e →
       ingestLoop dp uf none (fuel + 1) (p :: rest) cursor first nls
         = (Ev.fetch cursor p :: pre.map (fun x => Ev.upsert (normalizeTweet dp x)),
            pageCandidate first p nls, Except.error e))
    ∧ (∀ (bfetch : List String → List MetricRaw) (mf : MetricRaw → Option String)
         (g : List String) (groups : List (List String)) (pre : List MetricRaw)
         (m : MetricRaw) (post : List MetricRaw) (e : String),
       bfetch g = pre ++ m :: post → (∀ x ∈ pre, mf x = none) → mf m = some e →
       refreshMetricsLoop bfetch mf (g :: groups)
         = (MEv.fetchBatch g :: pre.map MEv.upsertM, Except.error e))
    ∧ (∀ (uuf muf : RawUser → Option String) (mp : MemberPage) (rest : List MemberPage)
         (cursor : Option String) (pre : List RawUser) (m : RawUser) (post : List RawUser)
         (e : String),
       mp.members = pre ++ m :: post → (∀ x ∈ pre, uuf x = none ∧ muf x = none) →
       uuf m = some e →
       syncMembersLoop uuf muf (mp :: rest) cursor
         = (SEv.fetchMembers cursor ::
              pre.flatMap (fun x => [SEv.upsertUserEv x,
                SEv.upsertMember (jsString x.id) x.userName]),
            Except.error e)) := by
  refine ⟨?_, ?_, ?_, ?_, ?_, ?_, ?_⟩
  · intro fenv uuf usernames
    induction usernames with
    | nil => rfl
    | cons u rest ih =>
      rw [refreshUsers_cons, List.filter_append, refreshOne_filter, ih, List.map_cons]
      rfl
  · intro fenv uuf username e hf
    simp [refreshOne, hf]
  · intro fenv uuf username d u e hf hc hu
    simp [refreshOne, hf, hc, hu]
  · intro dp uf fuel cursor p rest pre t post e hsplit hpre hfail
    have hall : ∀ x ∈ pre, cutoffHit none (normalizeTweet dp x).created_at = false
        ∧ uf (normalizeTweet dp x) = none :=
      fun x hx => ⟨cutoffHit_none _, hpre x hx⟩
    have hproc : processTweets dp uf none p.tweets
        = (pre.map (fun x => Ev.upsert (normalizeTweet dp x)), PageOutcome.failed e) := by
      rw [hsplit, processTweets_append dp uf none pre (t :: post) hall]
      simp [processTweets, cutoffHit_none, hfail]
    rw [backfillLoop]
    simp only [List.headD_cons, hproc]
  · intro dp uf fuel cursor first nls p rest pre t post e hsplit hpre hfail
    have hall : ∀ x ∈ pre, stopMatch none x = false ∧ uf (normalizeTweet dp x) = none :=
      fun x hx => ⟨stopMatch_none x, hpre x hx⟩
    have hscan : scanTweets dp uf none p.tweets
        = (pre.map (fun x => Ev.upsert (normalizeTweet dp x)), ScanOutcome.failed e) := by
      rw [hsplit, scanTweets_append dp uf none pre (t :: post) hall]
      simp [scanTweets, stopMatch_none, hfail]
    rw [ingestLoop]
    simp only [List.headD_cons, hscan]
  · intro bfetch mf g groups pre m post e hbatch hpre hfail
    have hup : upsertAllMetrics mf (bfetch g) = (pre.map MEv.upsertM, some e) := by
      rw [hbatch]
      exact upsertAllMetrics_fail_split mf e pre m post hpre hfail
    rw [refreshMetricsLoop]
    simp only [hup]
  · intro uuf muf mp rest cursor pre m post e hsplit hpre hfail
    have hproc : processMembers uuf muf mp.members
        = (pre.flatMap (fun x => [SEv.upsertUserEv x,
             SEv.upsertMember (jsString x.id) x.userName]), some e) := by
      rw [hsplit]
      exact processMembers_fail_split uuf muf e pre m post hpre hfail
    rw [syncMembersLoop]
    simp only [List.headD_cons, hproc]

/-- Demo user payload for the C9 witness. -/
def demoUser (uname : String) : RawUser :=
  { id := some "1", userName := some uname, name := none, followers := none,
    following := none, profilePicture := none }

/-- Demo fetch environment for the C9 witness: the handle bob fails, every
other handle succeeds with a user payload. -/
def demoFenv : String → Except String UserResp := fun u =>
  if u = "bob" then Except.error "boom"
  else Except.ok { user := some (demoUser u), data := none, result := none }

/-- Demo raw tweet for the C9 witness. -/
def demoTweet : RawTweet :=
  { id := "T1", url := none, text := none, createdAt := none, author := none }

/-- Demo single-tweet page for the C9 witness. -/
def demoPage : Page :=
  { tweets := [demoTweet], has_next_page := false, next_cursor := none }

/-- Demo metric payload for the C9 witness. -/
def demoMetric : MetricRaw :=
  { id := "M1", viewCount := none, likeCount := none, retweetCount := none,
    replyCount := none, quoteCount := none, bookmarkCount := none }

/-- Demo single-member page for the C9 witness. -/
def demoMemberPage : MemberPage :=
  { members := [demoUser "ann"], has_next_page := false, next_cursor := none }

/-- Witness for C9: concrete runs for every conjunct — two handles where
the first fails and the second is still refreshed, and one-item failures
unwinding each of the four other drivers. -/
theorem refresh_users_failure_isolation_witness :
    (refreshUsers demoFenv (fun _ => none) ["bob", "carol"]).filter isFetchUser
      = (["bob", "carol"].map UEv.fetchUser)
    ∧ refreshOne demoFenv (fun _ => none) "bob"
      = [UEv.fetchUser "bob", UEv.warn "bob" "boom"]
    ∧ refreshOne demoFenv (fun _ => some "db down") "carol"
      = [UEv.fetchUser "carol", UEv.warn "carol" "db down"]
    ∧ backfillLoop (fun _ => none) (fun _ => some "db down") none (0 + 1) [demoPage] none
      = (Ev.fetch none demoPage :: [], Except.error "db down")
    ∧ ingestLoop (fun _ => none) (fun _ => some "db down") none (0 + 1) [demoPage]
        none true none
      = (Ev.fetch none demoPage :: [], pageCandidate true demoPage none,
         Except.error "db down")
    ∧ refreshMetricsLoop (fun _ => [demoMetric]) (fun _ => some "db down") [["M1"]]
      = (MEv.fetchBatch ["M1"] :: [], Except.error "db down")
    ∧ syncMembersLoop (fun _ => some "db down") (fun _ => none) [demoMemberPage] none
      = (SEv.fetchMembers none :: [], Except.error "db down") := by
  obtain ⟨h1, h2, h3, h4, h5, h6, h7⟩ := refresh_users_failure_isolation
  refine ⟨h1 _ _ _, h2 _ _ _ _ rfl,
    h3 demoFenv (fun _ => some "db down") "carol"
      { user := some (demoUser "carol"), data := none, result := none }
      (demoUser "carol") "db down" rfl (by decide) (by decide),
    ?_, ?_, ?_, ?_⟩
  · have := h4 (fun _ => none) (fun _ => some "db down") 0 none demoPage [] [] demoTweet []
      "db down" (by decide) (by decide) (by decide)
    simpa using this
  · have := h5 (fun _ => none) (fun _ => some "db down") 0 none true none demoPage [] []
      demoTweet [] "db down" (by decide) (by decide) (by decide)
    simpa using this
  · have := h6 (fun _ => [demoMetric]) (fun _ => some "db down") ["M1"] [] [] demoMetric []
      "db down" (by decide) (by decide) (by decide)
    simpa using this
  · have := h7 (fun _ => some "db down") (fun _ => none) demoMemberPage [] none []
      (demoUser "ann") [] "db down" (by decide) (by decide) (by decide)
    simpa using this

end BulkHub
